import Mathlib

/-!
Verification of the LungoVax respiratory-mechanics simulation engine.

The Python sources (ODE_solver.py, assisted_respiration_simulations.py) are
embedded shallowly over exact rationals: numpy arrays become lists of
rationals, elementwise array operations become list maps and zips, and Python
exceptions become an explicit error type threaded through Except.
Floating-point rounding is not modelled; every claim under verification is
about exact arithmetic identities, array shapes or control flow, none of
which depend on rounding.
-/

namespace LungoVax

/-- Python exceptions that the modelled code can raise.
  indexError: numpy/list out-of-bounds access (Python IndexError);
  valueError: the explicit raise in higher_order_ODE (ODE_solver.py line 95),
    the dimension-mismatch failure that the spec calls DimensionMismatchError,
    and the failure of np.max on an empty array;
  broadcastError: the ValueError numpy raises when an assignment
    X[0, :] = X_0 cannot broadcast the source into the destination row. -/
inductive PyErr where
  | indexError : PyErr
  | valueError : PyErr
  | broadcastError : PyErr
  deriving DecidableEq, Repr

instance {ε α : Type} [DecidableEq ε] [DecidableEq α] : DecidableEq (Except ε α)
  | .error e, .error f =>
      if h : e = f then .isTrue (by rw [h]) else .isFalse (by simp [h])
  | .error _, .ok _ => .isFalse (by simp)
  | .ok _, .error _ => .isFalse (by simp)
  | .ok a, .ok b =>
      if h : a = b then .isTrue (by rw [h]) else .isFalse (by simp [h])

/-- np.abs on a scalar, written with an explicit case split so that concrete
evaluations reduce by simp. -/
def absQ (x : ℚ) : ℚ := if x < 0 then -x else x

/-- Elementwise sum of two numpy vectors of equal length. -/
def vadd (a b : List ℚ) : List ℚ := List.zipWith (· + ·) a b

/-- Scalar times a numpy vector, elementwise. -/
def smul (c : ℚ) (a : List ℚ) : List ℚ := a.map (fun x => c * x)

/-- FunctionArray.__call__ (ODE_solver.py lines 15-16):
np.array([f(*args) for f in self.functions]). -/
def evalFA (F : List (ℚ → List ℚ → ℚ)) (t : ℚ) (X : List ℚ) : List ℚ :=
  F.map (fun f => f t X)

/-- One iteration of the loop body of ruku4 (ODE_solver.py lines 46-51):
X[j+1, :] = X_j + h * (k1 + 2*k2 + 2*k3 + k4) / 6. -/
def rkStep (h : ℚ) (F : List (ℚ → List ℚ → ℚ)) (t : ℚ) (Xj : List ℚ) : List ℚ :=
  let k1 := evalFA F t Xj
  let k2 := evalFA F (t + h / 2) (vadd Xj (smul (h / 2) k1))
  let k3 := evalFA F (t + h / 2) (vadd Xj (smul (h / 2) k2))
  let k4 := evalFA F (t + h) (vadd Xj (smul h k3))
  vadd Xj ((vadd (vadd (vadd k1 (smul 2 k2)) (smul 2 k3)) k4).map (fun a => h * a / 6))

/-- The rows X[0], X[1], ... produced by the loop of ruku4: the row at a time
sample is the current state, and each remaining time sample T[j] with a
successor contributes the update X[j+1] = rkStep h F T[j] X[j]. -/
def rkRows (h : ℚ) (F : List (ℚ → List ℚ → ℚ)) : List ℚ → List ℚ → List (List ℚ)
  | [], _ => []
  | [_], X => [X]
  | t :: t2 :: ts, X => X :: rkRows h F (t2 :: ts) (rkStep h F t X)

/-- ruku4 (ODE_solver.py lines 22-53). h = T[1] - T[0] raises IndexError when
len(T) < 2. The assignment X[0, :] = X_0 succeeds when len(X_0) equals
M = len(F); numpy also broadcasts a length-1 X_0 across the M columns, and
raises a broadcast ValueError for any other length. No further validation is
performed: in particular h = 0 is accepted. -/
def ruku4 (T : List ℚ) (F : List (ℚ → List ℚ → ℚ)) (X0 : List ℚ) :
    Except PyErr (List (List ℚ)) :=
  match T with
  | t0 :: t1 :: ts =>
      if X0.length = F.length then
        .ok (rkRows (t1 - t0) F (t0 :: t1 :: ts) X0)
      else if X0.length = 1 then
        .ok (rkRows (t1 - t0) F (t0 :: t1 :: ts) (List.replicate F.length (X0.getD 0 0)))
      else .error .broadcastError
  | _ => .error .indexError

/-- single_ruku4 (ODE_solver.py lines 56-72): wraps the scalar derivative f in
a one-element FunctionArray and returns column 0 of the ruku4 result. Inside
ruku4 the function receives the length-1 state row, and all arithmetic on it
is elementwise on that single entry, so it reads component 0. -/
def single_ruku4 (T : List ℚ) (f : ℚ → ℚ → ℚ) (x0 : ℚ) : Except PyErr (List ℚ) :=
  (ruku4 T [fun t X => f t (X.getD 0 0)] [x0]).map (fun X => X.map (fun row => row.getD 0 0))

/-- np.dot of two equal-length vectors. -/
def dotQ (a b : List ℚ) : ℚ := (List.zipWith (· * ·) a b).sum

/-- higher_order_ODE (ODE_solver.py lines 75-101). The loop
`for i in range(M-1): F.append(lambda t, X: X[i+1])` builds closures over the
loop variable i itself, which Python reads at call time, after the loop has
finished, when i = M - 2; every intermediate derivative function therefore
returns X[M-1], not X[i+1] for its own position i. The final appended
function computes (f(t, X[0]) - np.dot(v[:-1], X)) / v[-1]. -/
def higher_order_ODE (T : List ℚ) (f : ℚ → ℚ → ℚ) (X0 : List ℚ) (v : List ℚ) :
    Except PyErr (List ℚ) :=
  let M := X0.length
  if M + 1 ≠ v.length then .error .valueError
  else
    let F := (List.range (M - 1)).map
        (fun _ => fun (_ : ℚ) (X : List ℚ) => X.getD (M - 1) 0)
      ++ [fun t X => (f t (X.getD 0 0) - dotQ v.dropLast X) / v.getD (v.length - 1) 0]
    (ruku4 T F X0).map (fun X => X.map (fun row => row.getD 0 0))

/-- Modelled from the spec and from the docstring of higher_order_ODE
(ODE_solver.py lines 84-88), which both state the intended state-space system
(dX[i]/dt = X[i+1] for i < M-1, and dX[M-1]/dt = (f(t,X[0]) - <v[:-1],X>)/v[-1]):
the i-th intermediate derivative reads its own successor component X[i+1].
This is the behaviour the code would have without the late-binding closure
over the loop variable. -/
def higher_order_ODE_intended (T : List ℚ) (f : ℚ → ℚ → ℚ) (X0 : List ℚ) (v : List ℚ) :
    Except PyErr (List ℚ) :=
  let M := X0.length
  if M + 1 ≠ v.length then .error .valueError
  else
    let F := (List.range (M - 1)).map
        (fun i => fun (_ : ℚ) (X : List ℚ) => X.getD (i + 1) 0)
      ++ [fun t X => (f t (X.getD 0 0) - dotQ v.dropLast X) / v.getD (v.length - 1) 0]
    (ruku4 T F X0).map (fun X => X.map (fun row => row.getD 0 0))

/-- ideal_pulse_func (assisted_respiration_simulations.py lines 158-168):
returns t ↦ amplitude * int(|(t - t_0)/d| < 1/2) with t_0 = (start+end)/2 and
d = end - start. -/
def ideal_pulse_func (start stop amplitude : ℚ) : ℚ → ℚ :=
  let t_0 := (start + stop) / 2
  let d := stop - start
  fun t => amplitude * (if absQ ((t - t_0) / d) < 1 / 2 then 1 else 0)

/-- np.cumsum: running sums of a 1-D array. -/
def cumsum : List ℚ → List ℚ
  | [] => []
  | a :: l => a :: (cumsum l).map (fun x => a + x)

/-- Helper for np.argmin over the distances to a target: scans the remaining
entries, keeping the first index that attains the least distance seen so
far. -/
def argminAbsAux (target : ℚ) : List ℚ → ℕ → ℕ → ℚ → ℕ
  | [], _, best, _ => best
  | t :: ts, i, best, bestVal =>
      if absQ (t - target) < bestVal then
        argminAbsAux target ts (i + 1) i (absQ (t - target))
      else argminAbsAux target ts (i + 1) best bestVal

/-- np.abs(time_vector - x).argmin(): the first index of the nearest sample
(np.argmin returns the first occurrence of the minimum). -/
def argminAbs (time : List ℚ) (target : ℚ) : ℕ :=
  match time with
  | [] => 0
  | t :: ts => argminAbsAux target ts 1 0 (absQ (t - target))

/-- numpy boolean-mask assignment arr[time > cutoff] = repl, with the mask
expressed through the predicate p on the time sample at each position:
masked entries are replaced, in order, by the entries of repl. numpy
requires len(repl) to equal the number of masked positions; the modelled
code always satisfies that, so the leftover cases here are immaterial. -/
def maskReplace (p : ℚ → Bool) : List ℚ → List ℚ → List ℚ → List ℚ
  | t :: ts, v :: vs, repl =>
      if p t then repl.headD v :: maskReplace p ts vs repl.tail
      else v :: maskReplace p ts vs repl
  | _, _, _ => []

/-- Central differences of np.gradient over the interior samples, with a
uniform scalar spacing dt. -/
def gradMid (dt : ℚ) : List ℚ → List ℚ
  | a :: b :: c :: rest => (c - a) / (2 * dt) :: gradMid dt (b :: c :: rest)
  | _ => []

/-- np.gradient(a, dt) with a uniform scalar spacing: one-sided differences
at the two ends, central differences inside. np.gradient raises on arrays of
fewer than 2 samples; in the modelled code that case is unreachable because
single_ruku4 has already raised IndexError on the same sub-grid, so the
short-array result here is immaterial. -/
def npGradient (a : List ℚ) (dt : ℚ) : List ℚ :=
  match a with
  | a0 :: a1 :: rest =>
      (a1 - a0) / dt ::
        (gradMid dt (a0 :: a1 :: rest) ++
          [(a.getD (a.length - 1) 0 - a.getD (a.length - 2) 0) / dt])
  | _ => []

/-- Interior samples of np.gradient(f, x) with a coordinate array: the
second-order quadratic-fit formula on possibly unequal spacings hs = x1 - x0
and hd = x2 - x1. -/
def gradMidCoord : List ℚ → List ℚ → List ℚ
  | x0 :: x1 :: x2 :: xs, f0 :: f1 :: f2 :: fs =>
      ((x1 - x0) ^ 2 * f2 + ((x2 - x1) ^ 2 - (x1 - x0) ^ 2) * f1 -
            (x2 - x1) ^ 2 * f0) /
          ((x1 - x0) * (x2 - x1) * ((x2 - x1) + (x1 - x0))) ::
        gradMidCoord (x1 :: x2 :: xs) (f1 :: f2 :: fs)
  | _, _ => []

/-- np.gradient(f, x) with a coordinate array x: one-sided differences at the
two ends, quadratic-fit differences inside (the same unreachability note as
npGradient applies below 2 samples). -/
def npGradientCoord (f x : List ℚ) : List ℚ :=
  match f, x with
  | f0 :: f1 :: fs, x0 :: x1 :: xs =>
      (f1 - f0) / (x1 - x0) ::
        (gradMidCoord (x0 :: x1 :: xs) (f0 :: f1 :: fs) ++
          [(f.getD (f.length - 1) 0 - f.getD (f.length - 2) 0) /
            (x.getD (x.length - 1) 0 - x.getD (x.length - 2) 0)])
  | _, _ => []

/-- Lines 33-35 of assisted_respiration_simulations.py: sample the flux
stimulus over the grid, then zero every sample strictly beyond end_time. -/
def sampledFlux (time : List ℚ) (fluxF : ℚ → ℚ) (end_time : ℚ) : List ℚ :=
  time.map (fun t => if end_time < t then 0 else fluxF t)

/-- Line 39: volume = np.cumsum(flux) * dt. -/
def volCumsum (fluxA : List ℚ) (dt : ℚ) : List ℚ :=
  (cumsum fluxA).map (fun x => x * dt)

/-- Line 40: pressure = resistance * flux + volume / capacitance + peep. -/
def rawPressure (fluxA volume : List ℚ) (R C peep : ℚ) : List ℚ :=
  List.zipWith (fun f v => R * f + v / C + peep) fluxA volume

/-- Line 44: pressure[time_vector > ex_time] = peep. -/
def clampPressure (time pressure0 : List ℚ) (ex_time peep : ℚ) : List ℚ :=
  List.zipWith (fun t p => if ex_time < t then peep else p) time pressure0

/-- The body of vol_clamp_sim (assisted_respiration_simulations.py lines
32-51) once end_time and pause_lapsus have been resolved. In order: sample
the flux stimulus over the grid and zero it beyond end_time; dt = T[1] - T[0]
(IndexError when the grid has fewer than 2 samples); volume = cumsum * dt;
pressure = R * flux + volume / C + peep, clamped to peep beyond
ex_time = end_time + pause_lapsus; re-solve the passive exhalation ODE
dv/dt = -(v / C) / R on the sub-grid of samples strictly beyond ex_time,
seeded with the volume at the sample nearest ex_time, overwrite volume there,
and overwrite flux there with np.gradient of the overwritten volume (which on
that sub-range equals the re-solved trajectory). -/
def vol_clamp_run (time : List ℚ) (capacitance resistance : ℚ) (fluxF : ℚ → ℚ)
    (peep pause_lapsus end_time : ℚ) : Except PyErr (List ℚ × List ℚ × List ℚ) :=
  match time with
  | t0 :: t1 :: _ =>
      let fluxA := sampledFlux time fluxF end_time
      let dt := t1 - t0
      let volume := volCumsum fluxA dt
      let ex_time := end_time + pause_lapsus
      let pressure := clampPressure time (rawPressure fluxA volume resistance capacitance peep)
        ex_time peep
      let v0 := volume.getD (argminAbs time ex_time) 0
      let subTime := time.filter (fun t => decide (ex_time < t))
      (single_ruku4 subTime (fun _ v => -(v / capacitance) * 1 / resistance) v0).bind
        (fun exVol =>
          .ok (maskReplace (fun t => decide (ex_time < t)) time volume exVol,
               maskReplace (fun t => decide (ex_time < t)) time fluxA (npGradient exVol dt),
               pressure))
  | _ => .error PyErr.indexError

/-- vol_clamp_sim (assisted_respiration_simulations.py lines 12-51): resolves
the optional end_time (default time_vector[int(0.6 * len(time_vector))]; the
float constant 0.6 is modelled as the exact rational 3/5) and pause_lapsus
(default np.max(time_vector) * 0.1, with 0.1 modelled as 1/10; np.max raises
on an empty array), then runs the clamp body. Every claim under verification
passes both parameters explicitly. -/
def vol_clamp_sim (time : List ℚ) (capacitance resistance : ℚ) (fluxF : ℚ → ℚ)
    (peep : ℚ) (pause_lapsus end_time : Option ℚ) :
    Except PyErr (List ℚ × List ℚ × List ℚ) :=
  let etE : Except PyErr ℚ :=
    match end_time with
    | some e => .ok e
    | none =>
        if 3 * time.length / 5 < time.length then .ok (time.getD (3 * time.length / 5) 0)
        else .error PyErr.indexError
  let plE : Except PyErr ℚ :=
    match pause_lapsus with
    | some p => .ok p
    | none =>
        match time with
        | [] => .error PyErr.valueError
        | t :: ts => .ok (ts.foldl max t * (1 / 10))
  etE.bind fun et => plE.bind fun pl =>
    vol_clamp_run time capacitance resistance fluxF peep pl et

/-- pressure_clamp_sim (assisted_respiration_simulations.py lines 54-75):
sample the pressure stimulus over the grid; p_func looks the sampled pressure
up at the index nearest t; integrate dv/dt = (p_func(t) - v/C - peep) / R
from v = 0 with single_ruku4; flux is np.gradient of the volume against the
time coordinates. -/
def pressure_clamp_sim (time : List ℚ) (compliance resistance : ℚ)
    (pressure_function : ℚ → ℚ) (peep : ℚ) :
    Except PyErr (List ℚ × List ℚ × List ℚ) :=
  let pressure := time.map pressure_function
  let p_func := fun t => pressure.getD (argminAbs time t) 0
  let fluxODE := fun (t v : ℚ) => (p_func t - v / compliance - peep) * 1 / resistance
  (single_ruku4 time fluxODE 0).map
    (fun volume => (volume, npGradientCoord volume time, pressure))

/-- The conclusion of claim C1, as a predicate on the inputs of ruku4: the
result is an N-by-M array X with X[0] = X_0 and each following row given by
the classical 4-stage Runge-Kutta update with step h = T[1] - T[0]. -/
def ruku4CorrectOn (T : List ℚ) (F : List (ℚ → List ℚ → ℚ)) (X0 : List ℚ) : Prop :=
  ∃ X, ruku4 T F X0 = .ok X ∧ X.length = T.length ∧
    (∀ row ∈ X, row.length = F.length) ∧ X.getD 0 [] = X0 ∧
    (∀ j, j + 1 < T.length →
      X.getD (j + 1) [] =
        (let h := T.getD 1 0 - T.getD 0 0
         let tj := T.getD j 0
         let Xj := X.getD j []
         let k1 := evalFA F tj Xj
         let k2 := evalFA F (tj + h / 2) (vadd Xj (smul (h / 2) k1))
         let k3 := evalFA F (tj + h / 2) (vadd Xj (smul (h / 2) k2))
         let k4 := evalFA F (tj + h) (vadd Xj (smul h k3))
         vadd Xj (smul (h / 6) (vadd (vadd (vadd k1 (smul 2 k2)) (smul 2 k3)) k4))))

/-- The conclusion of claim C5, as a predicate on a result triple of a
volume-clamp run: with exhale_time = end_time + pause_lapsus, the returned
pressure obeys pressure[j] = R * flow[j] + volume[j] / C + peep wherever
time[j] ≤ exhale_time, and pressure[j] = peep wherever time[j] >
exhale_time. -/
def volClampPressureProp (time : List ℚ) (C R peep pl et : ℚ)
    (vol fl pr : List ℚ) : Prop :=
  ∀ j, j < time.length →
    (time.getD j 0 ≤ et + pl →
      pr.getD j 0 = R * fl.getD j 0 + vol.getD j 0 / C + peep) ∧
    (et + pl < time.getD j 0 → pr.getD j 0 = peep)

/-- The conclusion of claim C6: up to exhale_time = end_time + pause_lapsus,
the returned flow is the sampled stimulus (F at the sample for time[j] ≤
end_time, 0 beyond end_time) and the returned volume is the cumulative sum of
the sampled flow times the grid step h = time[1] - time[0]. -/
def volClampFlowVolumeProp (time : List ℚ) (F : ℚ → ℚ) (pl et : ℚ)
    (vol fl : List ℚ) : Prop :=
  ∀ j, j < time.length → time.getD j 0 ≤ et + pl →
    fl.getD j 0 = (if et < time.getD j 0 then 0 else F (time.getD j 0)) ∧
    vol.getD j 0 =
      (∑ i ∈ Finset.range (j + 1),
        (if et < time.getD i 0 then 0 else F (time.getD i 0)))
        * (time.getD 1 0 - time.getD 0 0)

/-- The conclusion of claim C7: the returned volume and flow arrays are zero
everywhere. -/
def pressureClampZeroProp (vol fl : List ℚ) : Prop :=
  (∀ v ∈ vol, v = 0) ∧ (∀ g ∈ fl, g = 0)

/-! ### Structural lemmas about the integrator -/

lemma rkRows_length (h : ℚ) (F : List (ℚ → List ℚ → ℚ)) :
    ∀ (ts : List ℚ) (X : List ℚ), (rkRows h F ts X).length = ts.length
  | [], _ => rfl
  | [_], _ => rfl
  | t :: t2 :: ts, X => by
      simp only [rkRows, List.length_cons]
      rw [rkRows_length h F (t2 :: ts) (rkStep h F t X)]
      simp

lemma rkRows_getD_zero (h : ℚ) (F : List (ℚ → List ℚ → ℚ)) :
    ∀ (ts : List ℚ) (X : List ℚ), ts ≠ [] → (rkRows h F ts X).getD 0 [] = X
  | [], _, hne => absurd rfl hne
  | [_], _, _ => rfl
  | _ :: _ :: _, _, _ => rfl

lemma rkRows_getD_succ (h : ℚ) (F : List (ℚ → List ℚ → ℚ)) :
    ∀ (ts : List ℚ) (X : List ℚ) (j : ℕ), j + 1 < ts.length →
      (rkRows h F ts X).getD (j + 1) [] =
        rkStep h F (ts.getD j 0) ((rkRows h F ts X).getD j [])
  | [], _, _, hj => by simp at hj
  | [_], _, _, hj => by simp at hj
  | t :: t2 :: ts, X, 0, _ => by
      simp only [rkRows, List.getD_cons_succ, List.getD_cons_zero]
      exact rkRows_getD_zero h F (t2 :: ts) _ (by simp)
  | t :: t2 :: ts, X, j + 1, hj => by
      have ih := rkRows_getD_succ h F (t2 :: ts) (rkStep h F t X) j
        (by simpa using Nat.lt_of_succ_lt_succ hj)
      simpa only [rkRows, List.getD_cons_succ] using ih

lemma evalFA_length (F : List (ℚ → List ℚ → ℚ)) (t : ℚ) (X : List ℚ) :
    (evalFA F t X).length = F.length := by simp [evalFA]

lemma rkStep_length (h : ℚ) (F : List (ℚ → List ℚ → ℚ)) (t : ℚ) (X : List ℚ)
    (hx : X.length = F.length) : (rkStep h F t X).length = F.length := by
  simp [rkStep, vadd, smul, evalFA, hx]

lemma rkRows_row_length (h : ℚ) (F : List (ℚ → List ℚ → ℚ)) :
    ∀ (ts : List ℚ) (X : List ℚ), X.length = F.length →
      ∀ row ∈ rkRows h F ts X, row.length = F.length
  | [], _, _ => by simp [rkRows]
  | [t], X, hx => by
      intro row hrow
      simp only [rkRows, List.mem_singleton] at hrow
      exact hrow ▸ hx
  | t :: t2 :: ts, X, hx => by
      intro row hrow
      rcases List.mem_cons.mp hrow with rfl | hrow
      · exact hx
      · exact rkRows_row_length h F (t2 :: ts) (rkStep h F t X)
          (rkStep_length h F t X hx) row hrow

lemma map_hdiv6 (h : ℚ) (l : List ℚ) :
    l.map (fun a => h * a / 6) = smul (h / 6) l := by
  simp only [smul]
  induction l with
  | nil => rfl
  | cons a l ih =>
      simp only [List.map_cons, ih, List.cons.injEq, and_true]
      ring

lemma rkStep_eq_claim (h : ℚ) (F : List (ℚ → List ℚ → ℚ)) (t : ℚ) (Xj : List ℚ) :
    rkStep h F t Xj =
      (let k1 := evalFA F t Xj
       let k2 := evalFA F (t + h / 2) (vadd Xj (smul (h / 2) k1))
       let k3 := evalFA F (t + h / 2) (vadd Xj (smul (h / 2) k2))
       let k4 := evalFA F (t + h) (vadd Xj (smul h k3))
       vadd Xj (smul (h / 6) (vadd (vadd (vadd k1 (smul 2 k2)) (smul 2 k3)) k4))) := by
  simp only [rkStep]
  rw [map_hdiv6]

/-- C1: for every time grid of length N ≥ 2 with step h = T[1] - T[0], every
family of M scalar derivative functions and every initial state of length M,
ruku4 returns the N-by-M array that starts at X_0 and advances by the
classical RK4 update X[j+1] = X[j] + h/6 * (k1 + 2*k2 + 2*k3 + k4). -/
theorem ruku4_spec (T : List ℚ) (F : List (ℚ → List ℚ → ℚ)) (X0 : List ℚ)
    (hT : 2 ≤ T.length) (hM : X0.length = F.length) : ruku4CorrectOn T F X0 := by
  match T with
  | [] => simp at hT
  | [t] => simp at hT
  | t0 :: t1 :: ts =>
    refine ⟨rkRows (t1 - t0) F (t0 :: t1 :: ts) X0, ?_, ?_, ?_, ?_, ?_⟩
    · simp [ruku4, hM]
    · exact rkRows_length _ _ _ _
    · exact rkRows_row_length _ _ _ _ hM
    · exact rkRows_getD_zero _ _ _ _ (by simp)
    · intro j hj
      rw [rkRows_getD_succ (t1 - t0) F (t0 :: t1 :: ts) X0 j hj, rkStep_eq_claim]
      rfl

/-- Witness for C1 at the grid [0, 1, 2] with the single derivative
f(t, x) = t + x and initial state [1]. -/
theorem ruku4_spec_witness :
    2 ≤ ([0, 1, 2] : List ℚ).length ∧
    ruku4CorrectOn [0, 1, 2] [fun t X => t + X.getD 0 0] [1] :=
  ⟨by decide, ruku4_spec [0, 1, 2] [fun t X => t + X.getD 0 0] [1] (by decide) rfl⟩

/-! ### Error behaviour of the integrator and the adapters -/

/-- C9 counterexample: the two-sample grid [0, 0] has step h = 0, yet ruku4
raises nothing at all: it returns the constant trajectory, not an
InvalidInputError (no such validation exists in the code). -/
theorem ruku4_zero_step_counterexample :
    ruku4 [0, 0] [fun _ _ => (1 : ℚ)] [0] = .ok [[0], [0]] := by
  norm_num [ruku4, rkRows, rkStep, evalFA, vadd, smul]

/-- C9 amended: ruku4 validates nothing. A grid with fewer than 2 samples
makes the read of T[1] fail with an out-of-bounds IndexError — not an
InvalidInputError, which the code never defines — and that is the only way
the integrator itself errors on the grid: a zero step h = 0 is accepted and
the call returns normally. -/
theorem ruku4_index_error_iff (T : List ℚ) (F : List (ℚ → List ℚ → ℚ)) (X0 : List ℚ) :
    ruku4 T F X0 = .error .indexError ↔ T.length < 2 := by
  match T with
  | [] => simp [ruku4]
  | [t] => simp [ruku4]
  | t0 :: t1 :: ts =>
    simp only [ruku4, List.length_cons]
    constructor
    · intro hcontra
      split_ifs at hcontra <;> simp_all
    · intro hlen
      omega

lemma except_map_eq_error {α β : Type} (g : α → β) (e : Except PyErr α) (pe : PyErr) :
    e.map g = .error pe ↔ e = .error pe := by
  cases e <;> simp [Except.map]

lemma ruku4_ne_valueError (T : List ℚ) (F : List (ℚ → List ℚ → ℚ)) (X0 : List ℚ) :
    ruku4 T F X0 ≠ .error .valueError := by
  match T with
  | [] => simp [ruku4]
  | [t] => simp [ruku4]
  | t0 :: t1 :: ts =>
    simp only [ruku4]
    split_ifs <;> simp

/-- C4: higher_order_ODE raises its dimension-mismatch error (a Python
ValueError, the error the spec names DimensionMismatchError) exactly when
len(X_0) + 1 != len(v); with matching lengths that error is never raised —
any remaining failure is a different error of the underlying integrator. -/
theorem higher_order_ODE_dim_iff (T : List ℚ) (f : ℚ → ℚ → ℚ) (X0 v : List ℚ) :
    higher_order_ODE T f X0 v = .error .valueError ↔ X0.length + 1 ≠ v.length := by
  by_cases hv : X0.length + 1 ≠ v.length
  · simp [higher_order_ODE, if_pos hv, hv]
  · simp only [higher_order_ODE, if_neg hv]
    rw [except_map_eq_error]
    simp [ruku4_ne_valueError, hv]

/-- C3 (code bug): at order M = 3, with T = [0, 1], f = 0, X_0 = [0, 1, 0]
and v = [0, 0, 0, 1], the late-binding closures make every intermediate state
derivative read X[2], so the state never moves and the code returns the
trajectory [0, 0]; the system stated in the docstring of higher_order_ODE
(dX[0]/dt = X[1], dX[1]/dt = X[2], dX[2]/dt = 0) gives [0, 1] instead. -/
theorem higher_order_ODE_closure_bug :
    higher_order_ODE [0, 1] (fun _ _ => 0) [0, 1, 0] [0, 0, 0, 1] = .ok [0, 0] ∧
    higher_order_ODE_intended [0, 1] (fun _ _ => 0) [0, 1, 0] [0, 0, 0, 1] = .ok [0, 1] ∧
    higher_order_ODE [0, 1] (fun _ _ => 0) [0, 1, 0] [0, 0, 0, 1] ≠
      higher_order_ODE_intended [0, 1] (fun _ _ => 0) [0, 1, 0] [0, 0, 0, 1] := by
  refine ⟨?_, ?_, ?_⟩ <;>
    norm_num [higher_order_ODE, higher_order_ODE_intended, ruku4, rkRows, rkStep,
      evalFA, vadd, smul, dotQ, List.range_succ, Except.map, List.getD]

/-! ### Helper lemmas for the clamp simulations -/

lemma except_bind_ok {α β : Type} (e : Except PyErr α) (g : α → Except PyErr β) (b : β)
    (h : e.bind g = .ok b) : ∃ a, e = .ok a ∧ g a = .ok b := by
  cases e with
  | error err => simp [Except.bind] at h
  | ok a => exact ⟨a, rfl, by simpa [Except.bind] using h⟩

lemma except_map_eq_ok {α β : Type} (g : α → β) (e : Except PyErr α) (b : β)
    (h : e.map g = .ok b) : ∃ a, e = .ok a ∧ g a = b := by
  cases e with
  | error err => simp [Except.map] at h
  | ok a =>
      refine ⟨a, rfl, ?_⟩
      simpa [Except.map] using h

lemma getD_map_q (g : ℚ → ℚ) (l : List ℚ) (j : ℕ) (hj : j < l.length) :
    (l.map g).getD j 0 = g (l.getD j 0) := by
  induction l generalizing j with
  | nil => simp at hj
  | cons a l ih =>
      cases j with
      | zero => rfl
      | succ j =>
          simp only [List.map_cons, List.getD_cons_succ]
          exact ih j (by simpa using Nat.lt_of_succ_lt_succ hj)

lemma getD_zipWith_q (g : ℚ → ℚ → ℚ) (a b : List ℚ) (j : ℕ)
    (ha : j < a.length) (hb : j < b.length) :
    (List.zipWith g a b).getD j 0 = g (a.getD j 0) (b.getD j 0) := by
  induction a generalizing b j with
  | nil => simp at ha
  | cons x a ih =>
      cases b with
      | nil => simp at hb
      | cons y b =>
          cases j with
          | zero => rfl
          | succ j =>
              simp only [List.zipWith_cons_cons, List.getD_cons_succ]
              exact ih b j (by simpa using Nat.lt_of_succ_lt_succ ha)
                (by simpa using Nat.lt_of_succ_lt_succ hb)

lemma cumsum_length (l : List ℚ) : (cumsum l).length = l.length := by
  induction l with
  | nil => rfl
  | cons a l ih => simp [cumsum, ih]

lemma cumsum_getD (l : List ℚ) (j : ℕ) (hj : j < l.length) :
    (cumsum l).getD j 0 = ∑ i ∈ Finset.range (j + 1), l.getD i 0 := by
  induction l generalizing j with
  | nil => simp at hj
  | cons a l ih =>
      cases j with
      | zero => simp [cumsum]
      | succ j =>
          have hj2 : j < l.length := by simpa using Nat.lt_of_succ_lt_succ hj
          simp only [cumsum, List.getD_cons_succ]
          rw [getD_map_q (fun x => a + x) (cumsum l) j (by rw [cumsum_length]; exact hj2),
            ih j hj2, Finset.sum_range_succ' (fun i => (a :: l).getD i 0) (j + 1)]
          simp only [List.getD_cons_succ, List.getD_cons_zero]
          ring

lemma maskReplace_getD_not (p : ℚ → Bool) :
    ∀ (ts vs repl : List ℚ) (j : ℕ), j < ts.length → ts.length = vs.length →
      p (ts.getD j 0) = false →
      (maskReplace p ts vs repl).getD j 0 = vs.getD j 0
  | [], _, _, j, hj, _, _ => by simp at hj
  | t :: ts, [], repl, j, hj, hlen, hp => by simp at hlen
  | t :: ts, v :: vs, repl, 0, hj, hlen, hp => by
      simp only [List.getD_cons_zero] at hp ⊢
      simp [maskReplace, hp]
  | t :: ts, v :: vs, repl, j + 1, hj, hlen, hp => by
      have hj2 : j < ts.length := by simpa using Nat.lt_of_succ_lt_succ hj
      have hlen2 : ts.length = vs.length := by simpa using hlen
      have hp2 : p (ts.getD j 0) = false := by simpa using hp
      by_cases hpt : p t
      · simp only [maskReplace, if_pos hpt, List.getD_cons_succ]
        exact maskReplace_getD_not p ts vs repl.tail j hj2 hlen2 hp2
      · simp only [maskReplace, if_neg hpt, List.getD_cons_succ]
        exact maskReplace_getD_not p ts vs repl j hj2 hlen2 hp2

lemma getD_eq_zero_of_all (l : List ℚ) (hl : ∀ a ∈ l, a = 0) (i : ℕ) :
    l.getD i 0 = 0 := by
  induction l generalizing i with
  | nil => simp
  | cons a l ih =>
      cases i with
      | zero => exact hl a (List.mem_cons_self a l)
      | succ i =>
          simp only [List.getD_cons_succ]
          exact ih (fun b hb => hl b (List.mem_cons_of_mem a hb)) i

lemma getD_map_zero (l : List ℚ) (i : ℕ) :
    (l.map (fun _ => (0 : ℚ))).getD i 0 = 0 :=
  getD_eq_zero_of_all _ (by simp) i

lemma gradMidCoord_zero :
    ∀ (x f : List ℚ), (∀ a ∈ f, a = 0) → ∀ gq ∈ gradMidCoord x f, gq = 0
  | x0 :: x1 :: x2 :: xs, f0 :: f1 :: f2 :: fs, hf => by
      intro gq hgq
      have h0 : f0 = 0 := hf f0 (by simp)
      have h1 : f1 = 0 := hf f1 (by simp)
      have h2 : f2 = 0 := hf f2 (by simp)
      rcases List.mem_cons.mp hgq with rfl | hgq
      · rw [h0, h1, h2]
        ring_nf
      · exact gradMidCoord_zero (x1 :: x2 :: xs) (f1 :: f2 :: fs)
          (fun a ha => hf a (List.mem_cons_of_mem f0 ha)) gq hgq
  | [], f, _ => by simp [gradMidCoord]
  | [x0], f, _ => by simp [gradMidCoord]
  | [x0, x1], f, _ => by simp [gradMidCoord]
  | x0 :: x1 :: x2 :: xs, [], _ => by simp [gradMidCoord]
  | x0 :: x1 :: x2 :: xs, [f0], _ => by simp [gradMidCoord]
  | x0 :: x1 :: x2 :: xs, [f0, f1], _ => by simp [gradMidCoord]

lemma npGradientCoord_zero (f x : List ℚ) (hf : ∀ a ∈ f, a = 0) :
    ∀ gq ∈ npGradientCoord f x, gq = 0 := by
  match f, x with
  | [], _ => simp [npGradientCoord]
  | [f0], _ => simp [npGradientCoord]
  | f0 :: f1 :: fs, [] => simp [npGradientCoord]
  | f0 :: f1 :: fs, [x0] => simp [npGradientCoord]
  | f0 :: f1 :: fs, x0 :: x1 :: xs =>
      intro gq hgq
      have h0 : f0 = 0 := hf f0 (by simp)
      have h1 : f1 = 0 := hf f1 (by simp)
      simp only [npGradientCoord] at hgq
      rcases List.mem_cons.mp hgq with rfl | hgq
      · rw [h0, h1]
        simp
      · rcases List.mem_append.mp hgq with hgq | hgq
        · exact gradMidCoord_zero (x0 :: x1 :: xs) (f0 :: f1 :: fs) hf gq hgq
        · rcases List.mem_singleton.mp hgq with rfl
          rw [getD_eq_zero_of_all _ hf, getD_eq_zero_of_all _ hf]
          simp

lemma single_ruku4_ok (T : List ℚ) (f : ℚ → ℚ → ℚ) (x0 : ℚ) (hT : 2 ≤ T.length) :
    ∃ xs, single_ruku4 T f x0 = .ok xs := by
  match T with
  | [] => simp at hT
  | [t] => simp at hT
  | t0 :: t1 :: ts => exact ⟨_, rfl⟩

lemma rkStep_single_zero (h t : ℚ) (g : ℚ → List ℚ → ℚ)
    (hg : ∀ s X, X.getD 0 0 = 0 → g s X = 0) :
    rkStep h [g] t [0] = [0] := by
  have h1 : g t [0] = 0 := hg _ _ rfl
  have h2 : g (t + h / 2) [0] = 0 := hg _ _ rfl
  have h3 : g (t + h) [0] = 0 := hg _ _ rfl
  simp [rkStep, evalFA, vadd, smul, h1, h2, h3]

lemma rkRows_single_zero (h : ℚ) (g : ℚ → List ℚ → ℚ)
    (hg : ∀ s X, X.getD 0 0 = 0 → g s X = 0) :
    ∀ (ts : List ℚ), ∀ row ∈ rkRows h [g] ts [0], row = [0]
  | [] => by simp [rkRows]
  | [t] => by simp [rkRows]
  | t :: t2 :: ts => by
      intro row hrow
      simp only [rkRows] at hrow
      rcases List.mem_cons.mp hrow with rfl | hrow
      · rfl
      · rw [rkStep_single_zero h t g hg] at hrow
        exact rkRows_single_zero h g hg (t2 :: ts) row hrow

lemma sampledFlux_length (time : List ℚ) (F : ℚ → ℚ) (et : ℚ) :
    (sampledFlux time F et).length = time.length := by
  simp [sampledFlux]

lemma volCumsum_length (fluxA : List ℚ) (dt : ℚ) :
    (volCumsum fluxA dt).length = fluxA.length := by
  simp [volCumsum, cumsum_length]

lemma sampledFlux_getD (time : List ℚ) (F : ℚ → ℚ) (et : ℚ) (j : ℕ)
    (hj : j < time.length) :
    (sampledFlux time F et).getD j 0 =
      if et < time.getD j 0 then 0 else F (time.getD j 0) :=
  getD_map_q _ time j hj

lemma volCumsum_getD (fluxA : List ℚ) (dt : ℚ) (j : ℕ) (hj : j < fluxA.length) :
    (volCumsum fluxA dt).getD j 0 =
      (∑ i ∈ Finset.range (j + 1), fluxA.getD i 0) * dt := by
  unfold volCumsum
  rw [getD_map_q _ _ j (by rw [cumsum_length]; exact hj), cumsum_getD _ _ hj]

lemma rawPressure_getD (fluxA volume : List ℚ) (R C peep : ℚ) (j : ℕ)
    (hf : j < fluxA.length) (hv : j < volume.length) :
    (rawPressure fluxA volume R C peep).getD j 0 =
      R * fluxA.getD j 0 + volume.getD j 0 / C + peep :=
  getD_zipWith_q _ fluxA volume j hf hv

lemma clampPressure_getD (time p0 : List ℚ) (ex peep : ℚ) (j : ℕ)
    (hj : j < time.length) (hp : j < p0.length) :
    (clampPressure time p0 ex peep).getD j 0 =
      if ex < time.getD j 0 then peep else p0.getD j 0 :=
  getD_zipWith_q _ time p0 j hj hp

/-! ### The ideal pulse generator -/

lemma absQ_lt_iff (x c : ℚ) : absQ x < c ↔ -c < x ∧ x < c := by
  unfold absQ
  split_ifs with hx
  · constructor
    · intro hlt
      constructor <;> linarith
    · rintro ⟨h1, h2⟩
      linarith
  · constructor
    · intro hlt
      constructor <;> linarith
    · rintro ⟨h1, h2⟩
      linarith

lemma ideal_pulse_window (start stop : ℚ) (h : start < stop) (t : ℚ) :
    absQ ((t - (start + stop) / 2) / (stop - start)) < 1 / 2 ↔ (start < t ∧ t < stop) := by
  have hd : (0 : ℚ) < stop - start := by linarith
  rw [absQ_lt_iff]
  constructor
  · rintro ⟨h1, h2⟩
    rw [lt_div_iff₀ hd] at h1
    rw [div_lt_iff₀ hd] at h2
    constructor <;> nlinarith
  · rintro ⟨h1, h2⟩
    constructor
    · rw [lt_div_iff₀ hd]
      nlinarith
    · rw [div_lt_iff₀ hd]
      nlinarith

/-- C8: for start < stop, the pulse returned by ideal_pulse_func is the
amplitude strictly inside (start, stop) and 0 everywhere else, including at
t = start and t = stop exactly. -/
theorem ideal_pulse_func_spec (start stop amplitude : ℚ) (h : start < stop) (t : ℚ) :
    ((start < t ∧ t < stop) → ideal_pulse_func start stop amplitude t = amplitude) ∧
    ((t ≤ start ∨ stop ≤ t) → ideal_pulse_func start stop amplitude t = 0) := by
  simp only [ideal_pulse_func]
  constructor
  · intro ht
    rw [if_pos ((ideal_pulse_window start stop h t).mpr ht)]
    ring
  · intro ht
    rw [if_neg]
    · ring
    · intro hw
      rcases (ideal_pulse_window start stop h t).mp hw with ⟨h1, h2⟩
      rcases ht with ht | ht <;> linarith

/-- Witness for C8 with the pulse on (0, 2) of amplitude 5, evaluated strictly
inside at t = 1 and at the boundary t = 0. -/
theorem ideal_pulse_func_spec_witness :
    (0 : ℚ) < 2 ∧ ideal_pulse_func 0 2 5 1 = 5 ∧ ideal_pulse_func 0 2 5 0 = 0 :=
  ⟨by norm_num,
   (ideal_pulse_func_spec 0 2 5 (by norm_num) 1).1 (by norm_num),
   (ideal_pulse_func_spec 0 2 5 (by norm_num) 0).2 (by norm_num)⟩

/-! ### Volume-clamp pressure and flow/volume relations -/

/-- C5: on every volume-clamp run that returns, with exhale_time = end_time +
pause_lapsus, the returned pressure equals R * flow + volume / C + peep at
every sample with time[j] ≤ exhale_time and equals peep at every sample with
time[j] > exhale_time. vol_clamp_run is the body of vol_clamp_sim after the
optional parameters have been resolved, so this covers every run. -/
theorem vol_clamp_pressure_spec (time : List ℚ) (C R : ℚ) (F : ℚ → ℚ)
    (peep pl et : ℚ) (vol fl pr : List ℚ)
    (hok : vol_clamp_run time C R F peep pl et = .ok (vol, fl, pr)) :
    volClampPressureProp time C R peep pl et vol fl pr := by
  match time with
  | [] => simp [vol_clamp_run] at hok
  | [t] => simp [vol_clamp_run] at hok
  | t0 :: t1 :: rest =>
    simp only [vol_clamp_run] at hok
    obtain ⟨exVol, hs, hg⟩ := except_bind_ok _ _ _ hok
    simp only [Except.ok.injEq, Prod.mk.injEq] at hg
    obtain ⟨hv, hf, hp⟩ := hg
    intro j hj
    have hjF : j < (sampledFlux (t0 :: t1 :: rest) F et).length := by
      rw [sampledFlux_length]; exact hj
    have hjV : j < (volCumsum (sampledFlux (t0 :: t1 :: rest) F et) (t1 - t0)).length := by
      rw [volCumsum_length, sampledFlux_length]; exact hj
    have hjP : j < (rawPressure (sampledFlux (t0 :: t1 :: rest) F et)
        (volCumsum (sampledFlux (t0 :: t1 :: rest) F et) (t1 - t0)) R C peep).length := by
      simp only [rawPressure, List.length_zipWith]
      omega
    constructor
    · intro hle
      have hnot : ¬ (et + pl < (t0 :: t1 :: rest).getD j 0) := not_lt.mpr hle
      have hmask : (fun t => decide (et + pl < t)) ((t0 :: t1 :: rest).getD j 0) = false := by
        simpa using hnot
      rw [← hp, ← hv, ← hf,
        clampPressure_getD _ _ _ _ j hj hjP, if_neg hnot,
        rawPressure_getD _ _ _ _ _ j hjF hjV,
        maskReplace_getD_not _ _ _ _ j hj (by simp [volCumsum_length, sampledFlux_length]) hmask,
        maskReplace_getD_not _ _ _ _ j hj (by simp [volCumsum_length, sampledFlux_length]) hmask]
    · intro hlt
      rw [← hp, clampPressure_getD _ _ _ _ j hj hjP, if_pos hlt]

/-- C6: on every volume-clamp run that returns, up to exhale_time = end_time +
pause_lapsus the returned flow is the sampled stimulus (F(time[j]) for
time[j] ≤ end_time, 0 beyond) and the returned volume is the cumulative sum
of the sampled flow scaled by the grid step h = time[1] - time[0]; in
particular this holds at the sample of end_time itself. -/
theorem vol_clamp_flow_volume_spec (time : List ℚ) (C R : ℚ) (F : ℚ → ℚ)
    (peep pl et : ℚ) (vol fl pr : List ℚ)
    (hok : vol_clamp_run time C R F peep pl et = .ok (vol, fl, pr)) :
    volClampFlowVolumeProp time F pl et vol fl := by
  match time with
  | [] => simp [vol_clamp_run] at hok
  | [t] => simp [vol_clamp_run] at hok
  | t0 :: t1 :: rest =>
    simp only [vol_clamp_run] at hok
    obtain ⟨exVol, hs, hg⟩ := except_bind_ok _ _ _ hok
    simp only [Except.ok.injEq, Prod.mk.injEq] at hg
    obtain ⟨hv, hf, hp⟩ := hg
    intro j hj hle
    have hjF : j < (sampledFlux (t0 :: t1 :: rest) F et).length := by
      rw [sampledFlux_length]; exact hj
    have hnot : ¬ (et + pl < (t0 :: t1 :: rest).getD j 0) := not_lt.mpr hle
    have hmask : (fun t => decide (et + pl < t)) ((t0 :: t1 :: rest).getD j 0) = false := by
      simpa using hnot
    constructor
    · rw [← hf,
        maskReplace_getD_not _ _ _ _ j hj (by simp [volCumsum_length, sampledFlux_length]) hmask,
        sampledFlux_getD _ _ _ j hj]
    · rw [← hv,
        maskReplace_getD_not _ _ _ _ j hj (by simp [volCumsum_length, sampledFlux_length]) hmask,
        volCumsum_getD _ _ j hjF,
        Finset.sum_congr rfl
          (fun i hi => sampledFlux_getD (t0 :: t1 :: rest) F et i
            (by have := Finset.mem_range.mp hi; omega))]
      rfl

/-- Witness for C5: the run on [0, 1, 2, 3] with C = R = 1, unit flux,
peep = 0, pause_lapsus = 0 and end_time = 1. -/
theorem vol_clamp_pressure_spec_witness :
    vol_clamp_run [0, 1, 2, 3] 1 1 (fun _ => 1) 0 0 1 =
      .ok ([1, 2, 2, 3/4], [1, 1, -5/4, -5/4], [2, 3, 0, 0]) ∧
    volClampPressureProp [0, 1, 2, 3] 1 1 0 0 1
      [1, 2, 2, 3/4] [1, 1, -5/4, -5/4] [2, 3, 0, 0] := by
  have hok : vol_clamp_run [0, 1, 2, 3] 1 1 (fun _ => 1) 0 0 1 =
      .ok ([1, 2, 2, 3/4], [1, 1, -5/4, -5/4], [2, 3, 0, 0]) := by
    norm_num [vol_clamp_run, sampledFlux, volCumsum, rawPressure, clampPressure,
      cumsum, argminAbs, argminAbsAux, absQ, maskReplace, npGradient, gradMid,
      single_ruku4, ruku4, rkRows, rkStep, evalFA, vadd, smul, List.filter,
      Except.map, Except.bind, List.getD]
  exact ⟨hok, vol_clamp_pressure_spec [0, 1, 2, 3] 1 1 (fun _ => 1) 0 0 1 _ _ _ hok⟩

/-- Witness for C6: the same run as the C5 witness. -/
theorem vol_clamp_flow_volume_spec_witness :
    vol_clamp_run [0, 1, 2, 3] 1 1 (fun _ => 1) 0 0 1 =
      .ok ([1, 2, 2, 3/4], [1, 1, -5/4, -5/4], [2, 3, 0, 0]) ∧
    volClampFlowVolumeProp [0, 1, 2, 3] (fun _ => 1) 0 1
      [1, 2, 2, 3/4] [1, 1, -5/4, -5/4] := by
  have hok : vol_clamp_run [0, 1, 2, 3] 1 1 (fun _ => 1) 0 0 1 =
      .ok ([1, 2, 2, 3/4], [1, 1, -5/4, -5/4], [2, 3, 0, 0]) := by
    norm_num [vol_clamp_run, sampledFlux, volCumsum, rawPressure, clampPressure,
      cumsum, argminAbs, argminAbsAux, absQ, maskReplace, npGradient, gradMid,
      single_ruku4, ruku4, rkRows, rkStep, evalFA, vadd, smul, List.filter,
      Except.map, Except.bind, List.getD]
  exact ⟨hok, vol_clamp_flow_volume_spec [0, 1, 2, 3] 1 1 (fun _ => 1) 0 0 1 _ _ _ hok⟩

/-! ### Zero-input response of the pressure clamp -/

lemma ruku4_single_rows (t0 t1 : ℚ) (ts : List ℚ) (g : ℚ → List ℚ → ℚ) (x0 : ℚ) :
    ruku4 (t0 :: t1 :: ts) [g] [x0] =
      .ok (rkRows (t1 - t0) [g] (t0 :: t1 :: ts) [x0]) := by
  simp [ruku4]

/-- C7: in pressure-clamp mode with the identically-zero stimulus and the
default peep = 0, every returned volume sample is 0 and hence every returned
flow sample (the numerical gradient of the volume) is 0 as well. -/
theorem pressure_clamp_zero_input (time : List ℚ) (C R : ℚ)
    (hC : 0 < C) (hR : 0 < R) (vol fl pr : List ℚ)
    (hok : pressure_clamp_sim time C R (fun _ => 0) 0 = .ok (vol, fl, pr)) :
    pressureClampZeroProp vol fl := by
  simp only [pressure_clamp_sim, single_ruku4] at hok
  obtain ⟨volume, hs, htriple⟩ := except_map_eq_ok _ _ _ hok
  simp only [Prod.mk.injEq] at htriple
  obtain ⟨hv, hf, hp⟩ := htriple
  obtain ⟨rows, hr, hcol⟩ := except_map_eq_ok _ _ _ hs
  have hrows : ∀ row ∈ rows, row = [0] := by
    match time, hr with
    | [], hr => simp [ruku4] at hr
    | [t], hr => simp [ruku4] at hr
    | t0 :: t1 :: ts, hr =>
        rw [ruku4_single_rows] at hr
        simp only [Except.ok.injEq] at hr
        rw [← hr]
        refine rkRows_single_zero (t1 - t0) _ ?_ (t0 :: t1 :: ts)
        intro s X hX
        dsimp only
        rw [getD_map_zero, hX]
        simp
  constructor
  · intro v hvmem
    rw [← hv, ← hcol] at hvmem
    obtain ⟨row, hrow, rfl⟩ := List.mem_map.mp hvmem
    simp [hrows row hrow]
  · intro gq hgq
    rw [← hf] at hgq
    refine npGradientCoord_zero volume time ?_ gq hgq
    intro a ha
    rw [← hcol] at ha
    obtain ⟨row, hrow, rfl⟩ := List.mem_map.mp ha
    simp [hrows row hrow]

/-- Witness for C7: the grid [0, 1] with C = R = 1 and the zero stimulus. -/
theorem pressure_clamp_zero_input_witness :
    (0 : ℚ) < 1 ∧
    pressure_clamp_sim [0, 1] 1 1 (fun _ => 0) 0 = .ok ([0, 0], [0, 0], [0, 0]) ∧
    pressureClampZeroProp [0, 0] [0, 0] := by
  have hok : pressure_clamp_sim [0, 1] 1 1 (fun _ => 0) 0 =
      .ok ([0, 0], [0, 0], [0, 0]) := by
    norm_num [pressure_clamp_sim, single_ruku4, ruku4, rkRows, rkStep, evalFA,
      vadd, smul, argminAbs, argminAbsAux, absQ, npGradientCoord, gradMidCoord,
      Except.map, List.getD]
  exact ⟨by norm_num, hok,
    pressure_clamp_zero_input [0, 1] 1 1 (by norm_num) (by norm_num) _ _ _ hok⟩

/-! ### Failure modes of the clamp simulations -/

/-- C10: when fewer than two grid samples lie strictly beyond exhale_time =
end_time + pause_lapsus, the exhalation re-solve hands a sub-grid of fewer
than 2 samples to the integrator, whose read of T[1] is out of bounds, so the
volume-clamp run raises IndexError instead of returning a result triple. -/
theorem vol_clamp_short_exhale_raises (time : List ℚ) (C R : ℚ) (F : ℚ → ℚ)
    (peep pl et : ℚ) (h2 : 2 ≤ time.length)
    (hshort : (time.filter (fun t => decide (et + pl < t))).length < 2) :
    vol_clamp_run time C R F peep pl et = .error PyErr.indexError := by
  match time with
  | [] => simp at h2
  | [t] => simp at h2
  | t0 :: t1 :: rest =>
      simp only [vol_clamp_run]
      rcases hc : (t0 :: t1 :: rest).filter (fun t => decide (et + pl < t)) with
        _ | ⟨a, _ | ⟨b, l⟩⟩
      · rfl
      · rfl
      · rw [hc] at hshort
        simp at hshort
        omega

/-- Witness for C10: on the grid [0, 1] with end_time = 5 and pause 0, no
sample lies beyond exhale_time, and the run fails with IndexError. -/
theorem vol_clamp_short_exhale_raises_witness :
    2 ≤ ([0, 1] : List ℚ).length ∧
    vol_clamp_run [0, 1] 1 1 (fun _ => 1) 0 0 5 = .error PyErr.indexError :=
  ⟨by decide, vol_clamp_short_exhale_raises [0, 1] 1 1 (fun _ => 1) 0 0 5 (by decide)
    (by norm_num [List.filter])⟩

lemma pressure_clamp_sim_isOk (time : List ℚ) (C R : ℚ) (P : ℚ → ℚ) (peep : ℚ)
    (hT : 2 ≤ time.length) : (pressure_clamp_sim time C R P peep).isOk = true := by
  match time with
  | [] => simp at hT
  | [t] => simp at hT
  | t0 :: t1 :: ts => rfl

/-- C2 counterexample: pressure_clamp_sim with compliance C = -1 ≤ 0 returns
a result triple normally — no InvalidParameterError (which the code never
defines) and no exception of any kind is raised. -/
theorem clamp_no_validation_counterexample :
    (pressure_clamp_sim [0, 1] (-1) 1 (fun _ => 0) 0).isOk = true :=
  pressure_clamp_sim_isOk [0, 1] (-1) 1 (fun _ => 0) 0 (by decide)

/-- C2 amended: neither clamp simulation validates compliance or resistance —
no InvalidParameterError exists anywhere in the code. A call with C ≤ 0 or
R ≤ 0 proceeds exactly like any other call: on a grid of at least two samples
(and, for the volume clamp, an exhalation sub-grid of at least two samples)
it returns a result triple. -/
theorem clamp_sims_no_param_check (time : List ℚ) (C R : ℚ) (P F : ℚ → ℚ)
    (peep pl et : ℚ) (hbad : C ≤ 0 ∨ R ≤ 0) (h2 : 2 ≤ time.length)
    (hsub : 2 ≤ (time.filter (fun t => decide (et + pl < t))).length) :
    (pressure_clamp_sim time C R P peep).isOk = true ∧
    (vol_clamp_run time C R F peep pl et).isOk = true := by
  refine ⟨pressure_clamp_sim_isOk time C R P peep h2, ?_⟩
  match time, hsub with
  | [], _ => simp at h2
  | [t], _ => simp at h2
  | t0 :: t1 :: rest, hsub =>
      simp only [vol_clamp_run]
      obtain ⟨xs, hxs⟩ := single_ruku4_ok
        ((t0 :: t1 :: rest).filter (fun t => decide (et + pl < t)))
        (fun _ v => -(v / C) * 1 / R)
        ((volCumsum (sampledFlux (t0 :: t1 :: rest) F et) (t1 - t0)).getD
          (argminAbs (t0 :: t1 :: rest) (et + pl)) 0) hsub
      rw [hxs]
      rfl

/-- Witness for the amended C2 at C = -1 ≤ 0, R = 1, on the grid [0, 1] with
end_time = -1 (every sample beyond exhale_time). -/
theorem clamp_sims_no_param_check_witness :
    ((-1 : ℚ) ≤ 0 ∨ (1 : ℚ) ≤ 0) ∧
    ((pressure_clamp_sim [0, 1] (-1) 1 (fun _ => 0) 0).isOk = true ∧
     (vol_clamp_run [0, 1] (-1) 1 (fun _ => 0) 0 0 (-1)).isOk = true) :=
  ⟨Or.inl (by norm_num),
   clamp_sims_no_param_check [0, 1] (-1) 1 (fun _ => 0) (fun _ => 0) 0 0 (-1)
     (Or.inl (by norm_num)) (by decide) (by norm_num [List.filter])⟩

end LungoVax
